import Mathlib

/-!
# Verification of the Botany multi-store reconciliation engine

Shallow embedding of `botany-reconcile.py`: per-user repair of the three
persistence representations (primary pickled entity file, JSON mirror
document, shared SQLite garden table) plus the consistency auditor.

Modelling conventions:
* Machine integers and unix timestamps are `Int`.  The script compares
  `(time.time() - last) / 3600.0 > dead_after_hours` in float arithmetic;
  for the magnitudes involved (timestamps < 2^33, thresholds < 2^20) the
  float comparison agrees exactly with the integer comparison
  `now - last > 3600 * dead_after_hours`, which is how it is embedded here.
* A JSON mirror document is an association list `List (String × Int)`
  (the reconciler only ever reads integer-valued fields from it); a missing,
  unreadable or malformed file is `none`.  Python's `if not data:` therefore
  becomes `data = none ∨ data = some []` (an empty dict is falsy).
* The plant entity is reduced to the three fields the reconciler snapshots:
  `dead`, `watered_timestamp`, `ticks` (`ticks` is a float in the source but
  is only ever compared for equality, so it is embedded as `Int`).
* Store mutations are reified as an `Effect` trace instead of being hidden
  in `IO`; a dry-run suppressed write emits no effect, mirroring the
  early-return guards in `write_user_json` / `update_garden_db_is_dead`.
* Log message strings are kept verbatim except that dynamically formatted
  numeric suffixes (`hours_since=…`, backup paths) are elided as `...`;
  the substring tests done by `main` only inspect the static part.
-/

deriving instance DecidableEq for Except

namespace BotanyReconcile

/-- A JSON object as read by `read_user_json`: an association list of the
integer-valued fields the reconciler inspects. -/
abbrev Doc := List (String × Int)

/-- Python dict assignment `d[k] = v`: overwrite the value in place if the
key exists, otherwise append the new binding. -/
def docSet (d : Doc) (k : String) (v : Int) : Doc :=
  if (d.lookup k).isSome then
    d.map (fun p => if p.1 = k then (k, v) else p)
  else
    d ++ [(k, v)]

/-- The plant entity restricted to the fields snapshotted by the engine:
`dead`, `watered_timestamp` and `ticks`. -/
structure Plant where
  dead : Int
  watered : Int
  ticks : Int
deriving DecidableEq, Repr

/-- The `(dead, last_watered, ticks)` snapshot tuple captured by
`reconcile_normal`. -/
def snapOf (p : Plant) : Int × Int × Int := (p.dead, p.watered, p.ticks)

/-- A row of the shared `garden` table as returned by `read_db_row`
(`age`/`score` may be NULL; `is_dead` is an integer flag). -/
structure Row where
  age : Option Int
  score : Option Int
  is_dead : Int
deriving DecidableEq, Repr

/-- The Python exception classes relevant to the per-user handler in `main`:
the five explicitly caught classes plus an unclassified remainder
(indexed by `Nat` to keep distinct unclassified failures distinct). -/
inductive PyExc where
  | eofError
  | fileNotFoundError
  | valueError
  | moduleNotFoundError
  | importError
  | otherError (n : Nat)
deriving DecidableEq, Repr

/-- Whether `main`'s first `except` clause catches the exception, i.e. it is
one of `(EOFError, FileNotFoundError, ValueError, ModuleNotFoundError,
ImportError)`. -/
def classifiedExc : PyExc → Bool
  | .eofError => true
  | .fileNotFoundError => true
  | .valueError => true
  | .moduleNotFoundError => true
  | .importError => true
  | .otherError _ => false

/-- The spec's failure taxonomy (§7). -/
inductive ErrKind where
  | notFound
  | corrupt
  | unavailable
  | unclassified
deriving DecidableEq, Repr

/-- Modelled from the spec: §7 maps the caught exception classes onto the
taxonomy — `NotFound` (no primary file), `Corrupt` (present but
undeserializable), `Unavailable` (required subsystem missing). -/
def kindOfExc : PyExc → ErrKind
  | .fileNotFoundError => .notFound
  | .eofError => .corrupt
  | .valueError => .corrupt
  | .moduleNotFoundError => .unavailable
  | .importError => .unavailable
  | .otherError _ => .unclassified

/-- A store mutation performed by the reconciler.  Reads are pure; every
write is reified as one of these constructors. -/
inductive Effect where
  /-- `dm.save_plant`: write the pickled entity at the named savefile. -/
  | savePlant (name : String) (p : Plant)
  /-- `write_user_json` / `dm.data_write_json`: atomically replace the
  mirror document. -/
  | writeJson (d : Doc)
  /-- `update_garden_db_is_dead`: `UPDATE garden SET is_dead = v`. -/
  | updateDbIsDead (v : Int)
  /-- `dm.update_garden_db`: refresh the table row from the entity. -/
  | updateDbPlant (p : Plant)
  /-- `backup_file`: copy the primary file to a timestamped sibling. -/
  | backupFile (name : String)
deriving DecidableEq, Repr

/-- A character of the safe-username class `[A-Za-z0-9._-]`. -/
def safeChar (c : Char) : Bool :=
  c.isAlphanum || c = '.' || c = '_' || c = '-'

/-- `is_safe_username`: `bool(re.match(r"^[A-Za-z0-9._-]+$", u))`.
Python's `$` also matches just before a single trailing newline, so a
class-matching name followed by one `'\n'` passes the check. -/
def isSafeUsername (u : String) : Bool :=
  let cs := u.data
  let core := if cs.getLast? = some '\n' then cs.dropLast else cs
  !core.isEmpty && core.all safeChar

/-- The claim-side reading of the discovery contract: the username matches
the character class `[A-Za-z0-9._-]+` in full (no newline allowance).
Kept separate from `isSafeUsername` to compare the spec's wording with the
source's regex semantics. -/
def matchesSafeClass (u : String) : Bool :=
  !u.data.isEmpty && u.data.all safeChar

/-- `write_user_json`: no-op returning `false` under dry-run, otherwise an
atomic replace of the mirror document.  Returns (written, effects). -/
def writeUserJson (dryRun : Bool) (d : Doc) : Bool × List Effect :=
  if dryRun then (false, []) else (true, [.writeJson d])

/-- `update_garden_db_is_dead`: no-op under dry-run; otherwise a best-effort
`UPDATE garden SET is_dead = v` (absence of the DB file or row makes the
applied effect a no-op, see `applyEffect`). -/
def updateGardenDbIsDead (dryRun : Bool) (v : Int) : List Effect :=
  if dryRun then [] else [.updateDbIsDead v]

/-- A candidate `*_plant.dat` file: (basename, mtime). -/
abbrev DatFile := String × Int

/-- Whether a basename matches the glob pattern `*_plant.dat`. -/
def matchesDatPattern (name : String) : Bool :=
  "_plant.dat".data.isSuffixOf name.data

/-- Insert into a list sorted by strictly decreasing preference on `mtime`
(stable, mirroring `list.sort(key=mtime, reverse=True)`). -/
def insertByMtime (x : DatFile) : List DatFile → List DatFile
  | [] => [x]
  | y :: t => if y.2 < x.2 then x :: y :: t else y :: insertByMtime x t

/-- `candidates.sort(key=lambda p: os.path.getmtime(p), reverse=True)`. -/
def sortByMtimeDesc : List DatFile → List DatFile
  | [] => []
  | x :: t => insertByMtime x (sortByMtimeDesc t)

/-- `find_user_dat_path`: among the files of the user's `.botany` directory,
filter the `*_plant.dat` candidates; prefer the canonical
`<user>_plant.dat`; otherwise take the most recently modified. -/
def findUserDatPath (user : String) (files : List DatFile) : Option String :=
  let candidates := files.filter (fun f => matchesDatPattern f.1)
  if candidates.isEmpty then
    none
  else
    if candidates.any (fun f => f.1 = user ++ "_plant.dat") then
      some (user ++ "_plant.dat")
    else
      match sortByMtimeDesc candidates with
      | [] => none
      | c :: _ => some c.1

/-- Python's substring test `pat in hay`. -/
def strContains (hay pat : String) : Bool :=
  hay.data.tails.any (fun t => pat.data.isPrefixOf t)

/-- `main`'s fixed-counting test on a recovery action message:
`"reinitialized" in action or "marked dead" in action`. -/
def countsFixed (action : String) : Bool :=
  strContains action "reinitialized" || strContains action "marked dead"

/-- `fallback_mark_dead`: with the primary file unusable and reinit
disabled, mark the user dead in mirror + table when the mirror's
`last_watered` is older than the threshold.  Returns the action message and
the store mutations performed. -/
def fallbackMarkDead (dryRun : Bool) (deadAfterHours : Int) (now : Int)
    (mirror : Option Doc) : String × List Effect :=
  match mirror with
  | none => ("no JSON; skipped", [])
  | some data =>
    if data.isEmpty then
      ("no JSON; skipped", [])
    else
      let last := (data.lookup "last_watered").getD 0
      if last ≤ 0 then
        ("JSON missing last_watered; skipped", [])
      else
        if 3600 * deadAfterHours < now - last then
          if (data.lookup "is_dead").getD 0 ≠ 1 then
            let data1 := docSet data "is_dead" 1
            ("marked dead via JSON/DB (hours_since=...)",
              (writeUserJson dryRun data1).2 ++ updateGardenDbIsDead dryRun 1)
          else
            ("already dead in JSON", [])
        else
          ("still within threshold (...h)", [])

/-- The command-line options consumed by the engine (`parse_args`). -/
structure Args where
  dryRun : Bool
  reinitCorrupt : Bool
  audit : Bool
  user : Option String
  deadAfterHours : Int
  waterIntervalHours : Int
deriving Repr

/-- The persistent state of one user's three stores plus the behaviour of
the external entity subsystem on it.

`datFiles` are the (basename, mtime) entries of the user's `.botany`
directory (hidden names excluded, as `glob` skips them); `diskSnap` is the
`(dead, watered, ticks)` triple stored in the primary file; `loadResult` is
what `dm.load_plant()` produces on the located file — the loaded entity
after the entity's own load-time invariant checks, or the exception raised;
`mirror` is the JSON mirror read (`none` for missing/unreadable/malformed);
`dbRow` is the latest garden-table row (`none` for missing DB/row/error);
`reinitRaises` makes the entity reconstruction inside `reinit_corrupt`
fail. -/
structure UserEnv where
  datFiles : List DatFile
  diskSnap : Plant
  loadResult : Except PyExc Plant
  mirror : Option Doc
  dbRow : Option Row
  reinitRaises : Bool

/-- Modelled from the spec: `data_write_json` (in the external `botany`
module) projects the entity onto the mirror-document fields
(`is_dead`, `last_watered`). -/
def docOfPlant (p : Plant) : Doc :=
  [("is_dead", p.dead), ("last_watered", p.watered)]

/-- Modelled from the spec: `save_plant` / `data_write_json` /
`update_garden_db` persist the entity; §4.1 assigns the invariant-check
side effects to `load`, not to `save`, so persistence leaves the in-memory
entity's fields unchanged. -/
def persistKeepsFields : Plant → Plant := id

/-- `reconcile_normal`, parametric in the (hypothetical) mutation
`persistMut` that the persistence calls apply to the in-memory entity.
Locates the primary file (raising `FileNotFoundError` when absent), loads
the entity, snapshots `(dead, last_watered, ticks)`, persists to the three
stores unless dry-run, snapshots again, and reports `changed` iff the two
snapshots differ. -/
def reconcileNormalP (persistMut : Plant → Plant) (a : Args) (user : String)
    (ue : UserEnv) : Except PyExc (Bool × (Int × Int × Int) × (Int × Int × Int)) × List Effect :=
  match findUserDatPath user ue.datFiles with
  | none => (.error .fileNotFoundError, [])
  | some datName =>
    match ue.loadResult with
    | .error e => (.error e, [])
    | .ok plant =>
      let before := snapOf plant
      let (plant1, effs) :=
        if a.dryRun then (plant, [])
        else (persistMut plant,
              [Effect.savePlant datName plant, Effect.writeJson (docOfPlant plant),
               Effect.updateDbPlant plant])
      let after := snapOf plant1
      (.ok (decide (before ≠ after), before, after), effs)

/-- `reconcile_normal` as invoked by `main`. -/
def reconcileNormal (a : Args) (user : String) (ue : UserEnv) :=
  reconcileNormalP persistKeepsFields a user ue

/-- Modelled from the spec: `Plant(path)` constructs a fresh, non-dead
entity watered at creation time. -/
def freshPlant (now : Int) : Plant :=
  { dead := 0, watered := now, ticks := 0 }

/-- `reinit_corrupt`: under dry-run, report only; otherwise back up an
existing primary file, construct a fresh entity and persist it to all three
stores (on reconstruction failure the backup has already happened). -/
def reinitCorrupt (a : Args) (now : Int) (user : String) (ue : UserEnv) :
    String × List Effect :=
  if a.dryRun then
    ("DRY-RUN would reinitialize and backup", [])
  else
    let datPath := findUserDatPath user ue.datFiles
    let saveName := datPath.getD (user ++ "_plant.dat")
    let backupEffs : List Effect :=
      match datPath with
      | some p => [.backupFile p]
      | none => []
    if ue.reinitRaises then
      ("reinit failed: ...", backupEffs)
    else
      let p := freshPlant now
      ("reinitialized (backup=...)",
        backupEffs ++ [.savePlant saveName p, .writeJson (docOfPlant p), .updateDbPlant p])

/-- The page-view projection built by `compute_page_view`. -/
structure PageView where
  source : String
  is_dead : Option Int
  alive : Option Bool
  thirsty : Option Bool
  age : Option Int
  score : Option Int
  last_watered : Option Int
deriving DecidableEq, Repr

/-- The all-undetermined initial page record. -/
def PageView.empty : PageView :=
  { source := "none", is_dead := none, alive := none, thirsty := none,
    age := none, score := none, last_watered := none }

/-- `int(lw) if isinstance(lw, (int, float, str)) and str(lw).isdigit() else None`:
on the integer value model, `str(lw).isdigit()` holds exactly for
non-negative values. -/
def parseLastWatered (d : Doc) : Option Int :=
  (d.lookup "last_watered").bind (fun lw => if 0 ≤ lw then some lw else none)

/-- `compute_page_view`: prefer the (truthy) JSON mirror, else fall back to
the latest table row, else leave every field undetermined. -/
def computePageView (waterIntervalHours : Int) (now : Int)
    (mirror : Option Doc) (dbRow : Option Row) : PageView :=
  let fromDb : PageView :=
    match dbRow with
    | some row =>
      { source := "db", is_dead := some row.is_dead,
        alive := some (decide (row.is_dead = 0)), thirsty := none,
        age := row.age, score := some (row.score.getD 0), last_watered := none }
    | none => PageView.empty
  match mirror with
  | some js =>
    if js.isEmpty then
      fromDb
    else
      let isDead := (js.lookup "is_dead").getD 0
      let lw := parseLastWatered js
      { source := "json", is_dead := some isDead,
        alive := some (decide (isDead = 0)),
        thirsty := some (match lw with
          | some t => decide (waterIntervalHours * 3600 ≤ now - t)
          | none => false),
        age := js.lookup "age", score := some ((js.lookup "score").getD 0),
        last_watered := lw }
  | none => fromDb

/-- The live-view projection built by `load_plant_state`. -/
structure LiveView where
  ok : Bool
  dead : Option Int
  last_watered : Option Int
  error : Option PyExc
deriving DecidableEq, Repr

/-- `load_plant_state`: locate + load without persisting; on any failure
record the exception and leave the fields undetermined. -/
def loadPlantState (user : String) (ue : UserEnv) : LiveView :=
  match findUserDatPath user ue.datFiles with
  | none => { ok := false, dead := none, last_watered := none,
              error := some .fileNotFoundError }
  | some _ =>
    match ue.loadResult with
    | .error e => { ok := false, dead := none, last_watered := none, error := some e }
    | .ok p => { ok := true, dead := some p.dead, last_watered := some p.watered,
                 error := none }

/-- The per-user audit record built by `audit_user` (fields not used by the
exit-code policy or the mismatch rule are omitted from the embedding:
they are pure reformattings of the two projections). -/
structure AuditRecord where
  user : String
  pageSource : String
  pageAlive : Option Bool
  pageThirsty : Option Bool
  plantOk : Bool
  plantDead : Option Int
  mismatchAlive : Option Bool
  plantError : Option PyExc
deriving DecidableEq, Repr

/-- `audit_user`: build both projections and flag a mismatch only when both
`page["alive"]` and `plant["dead"]` are determinate. -/
def auditUser (a : Args) (now : Int) (user : String) (ue : UserEnv) : AuditRecord :=
  let page := computePageView a.waterIntervalHours now ue.mirror ue.dbRow
  let plant := loadPlantState user ue
  let mismatch : Option Bool :=
    match page.alive, plant.dead with
    | some pa, some pd => some (!(pa == decide (pd = 0)))
    | _, _ => none
  { user := user, pageSource := page.source, pageAlive := page.alive,
    pageThirsty := page.thirsty, plantOk := plant.ok, plantDead := plant.dead,
    mismatchAlive := mismatch, plantError := plant.error }

/-- The per-user outcome of one iteration of `main`'s loop. -/
inductive UOutcome where
  /-- `reconcile_normal` succeeded; `changed` is its snapshot comparison. -/
  | normalOk (changed : Bool)
  /-- A classified failure was routed into recovery; the recovery action
  message is recorded. -/
  | recovered (action : String)
  /-- An unclassified exception: logged and counted as a hard error. -/
  | hardError (e : PyExc)
  /-- `continue`d because the username failed `is_safe_username`. -/
  | skippedUnsafe
deriving DecidableEq, Repr

/-- What one loop iteration of `main` produces for one user. -/
structure PUResult where
  outcome : UOutcome
  fixedD : Nat
  errorsD : Nat
  effs : List Effect
deriving DecidableEq, Repr

/-- One iteration of `main`'s per-user loop: skip unsafe names, try the
normal path, route the five caught exception classes into recovery
(reinit when `--reinit-corrupt`, else the fallback), count any other
exception as a hard error. -/
def processUser (a : Args) (now : Int) (u : String) (ue : UserEnv) : PUResult :=
  if !isSafeUsername u then
    { outcome := .skippedUnsafe, fixedD := 0, errorsD := 0, effs := [] }
  else
    match reconcileNormal a u ue with
    | (.ok (changed, _, _), effs) =>
      { outcome := .normalOk changed, fixedD := if changed then 1 else 0,
        errorsD := 0, effs := effs }
    | (.error e, _) =>
      if classifiedExc e then
        let (action, effs) :=
          if a.reinitCorrupt then reinitCorrupt a now u ue
          else fallbackMarkDead a.dryRun a.deadAfterHours now ue.mirror
        { outcome := .recovered action,
          fixedD := if countsFixed action then 1 else 0,
          errorsD := 0, effs := effs }
      else
        { outcome := .hardError e, fixedD := 0, errorsD := 1, effs := [] }

/-- How one committed store mutation transforms the user's persistent
state, as seen by a later read (the audit phase).  Re-loading a just-saved
entity is modelled from the spec as returning it unchanged (its invariant
checks have just been applied/reset). -/
def applyEffect (now : Int) (ue : UserEnv) : Effect → UserEnv
  | .savePlant name p =>
    { ue with datFiles := ue.datFiles.filter (fun f => f.1 ≠ name) ++ [(name, now)],
              diskSnap := p, loadResult := .ok p }
  | .writeJson d => { ue with mirror := some d }
  | .updateDbIsDead v =>
    { ue with dbRow := ue.dbRow.map (fun r => { r with is_dead := v }) }
  | .updateDbPlant p =>
    { ue with dbRow := some { age := ue.dbRow.bind Row.age,
                              score := ue.dbRow.bind Row.score,
                              is_dead := p.dead } }
  | .backupFile _ => ue

/-- Aggregate result of `main`'s reconciliation loop. -/
structure RunResult where
  fixed : Nat
  errors : Nat
  outcomes : List UOutcome
  tagged : List (String × Effect)
  envAfter : String → UserEnv

/-- `main`'s loop over the (sorted) user list: per-user processing with the
counters accumulated and each user's committed effects applied to that
user's store state. -/
def runUsers (a : Args) (now : Int) : List String → (String → UserEnv) → RunResult
  | [], env => { fixed := 0, errors := 0, outcomes := [], tagged := [], envAfter := env }
  | u :: rest, env =>
    let r := processUser a now u (env u)
    let env1 : String → UserEnv :=
      fun v => if v = u then r.effs.foldl (applyEffect now) (env u) else env v
    let tail := runUsers a now rest env1
    { fixed := r.fixedD + tail.fixed, errors := r.errorsD + tail.errors,
      outcomes := r.outcome :: tail.outcomes,
      tagged := r.effs.map (fun e => (u, e)) ++ tail.tagged,
      envAfter := tail.envAfter }

/-- Stable insertion into an ascending list of strings
(mirrors Python's `sorted`). -/
def insertStr (x : String) : List String → List String
  | [] => [x]
  | y :: t => if x < y then x :: y :: t else y :: insertStr x t

/-- `sorted(users)`. -/
def sortStrings : List String → List String
  | [] => []
  | x :: t => insertStr x (sortStrings t)

/-- `list_users_with_plant`: with `--user` given, just that name; otherwise
the de-duplicated sorted safe owners of the globbed `*_plant.dat` files
(`globOwners` are the directory names the glob walk yields, in glob
order). -/
def listUsersWithPlant (globOwners : List String) (onlyUser : Option String) :
    List String :=
  match onlyUser with
  | some u => [u]
  | none => sortStrings ((globOwners.filter (fun u => isSafeUsername u)).dedup)

/-- The observable result of one `main` run. -/
structure MainResult where
  exit : Nat
  fixed : Nat
  errors : Nat
  tagged : List (String × Effect)
  rows : List AuditRecord

/-- The user list `main` iterates over: discovery output, plus the
`--user` append guard of line 323 (dead in practice, since the discovery
branch for `--user` already returns exactly that name). -/
def usersOf (a : Args) (globOwners : List String) : List String :=
  let users0 := listUsersWithPlant globOwners a.user
  match a.user with
  | some u => if u ∉ users0 ∧ isSafeUsername u then users0 ++ [u] else users0
  | none => users0

/-- The audit phase of `main`: when `--audit` is given, one record per
(sorted) user, computed against the post-reconciliation store state. -/
def auditRows (a : Args) (now : Int) (users : List String)
    (envAfter : String → UserEnv) : List AuditRecord :=
  if a.audit then (sortStrings users).map (fun u => auditUser a now u (envAfter u))
  else []

/-- `main`'s return value: `2` iff auditing ran and some row is flagged
(`any(r.get("mismatch_alive") for r in rows)`), else `0`. -/
def exitCodeOf (a : Args) (rows : List AuditRecord) : Nat :=
  if a.audit && rows.any (fun r => r.mismatchAlive == some true) then 2 else 0

/-- The body of `main` once the user list is fixed: reconcile each user in
sorted order, optionally audit every user against the post-reconciliation
stores, exit `2` exactly when an audit row is flagged (`0` otherwise). -/
def mainFinish (a : Args) (now : Int) (users : List String)
    (env : String → UserEnv) : MainResult :=
  if users.isEmpty then
    { exit := 0, fixed := 0, errors := 0, tagged := [], rows := [] }
  else
    let R := runUsers a now (sortStrings users) env
    let rows := auditRows a now users R.envAfter
    { exit := exitCodeOf a rows, fixed := R.fixed, errors := R.errors,
      tagged := R.tagged, rows := rows }

/-- `main`: discover users, reconcile each, optionally audit, and exit with
`2` exactly when an audit run flagged a mismatch (`0` otherwise). -/
def mainRun (a : Args) (now : Int) (globOwners : List String)
    (env : String → UserEnv) : MainResult :=
  mainFinish a now (usersOf a globOwners) env

/-! ## Helper lemmas -/

theorem lookup_map_overwrite (t : Doc) (k : String) (v : Int)
    (h : (t.lookup k).isSome = true) :
    (t.map (fun p => if p.1 = k then (k, v) else p)).lookup k = some v := by
  induction t with
  | nil => simp [List.lookup] at h
  | cons p rest ih =>
    rcases p with ⟨pk, pv⟩
    by_cases hk : pk = k
    · subst hk
      rw [List.map_cons]
      rw [if_pos rfl]
      simp [List.lookup]
    · have hbeq : (k == pk) = false := beq_eq_false_iff_ne.2 (Ne.symm hk)
      rw [List.lookup, hbeq] at h
      rw [List.map_cons]
      dsimp only
      rw [if_neg hk, List.lookup, hbeq]
      exact ih h

theorem lookup_append_single (t : Doc) (k : String) (v : Int)
    (h : t.lookup k = none) :
    (t ++ [(k, v)]).lookup k = some v := by
  induction t with
  | nil => simp [List.lookup]
  | cons p rest ih =>
    rcases p with ⟨pk, pv⟩
    rw [List.lookup] at h
    rcases hbeq : (k == pk) with _ | _
    · rw [hbeq] at h
      rw [List.cons_append, List.lookup, hbeq]
      exact ih h
    · rw [hbeq] at h
      simp at h

theorem docSet_lookup (d : Doc) (k : String) (v : Int) :
    (docSet d k v).lookup k = some v := by
  unfold docSet
  split
  · exact lookup_map_overwrite d k v (by assumption)
  · refine lookup_append_single d k v ?_
    rename_i h
    exact Option.not_isSome_iff_eq_none.1 (by simpa using h)

theorem fallbackMarkDead_dry_effs (deadAfterHours now : Int) (m : Option Doc) :
    (fallbackMarkDead true deadAfterHours now m).2 = [] := by
  unfold fallbackMarkDead
  rcases m with _ | d
  · rfl
  · dsimp only
    split_ifs <;> simp [writeUserJson, updateGardenDbIsDead]

theorem fallbackMarkDead_msg_indep_dry (d1 d2 : Bool) (deadAfterHours now : Int)
    (m : Option Doc) :
    (fallbackMarkDead d1 deadAfterHours now m).1 =
      (fallbackMarkDead d2 deadAfterHours now m).1 := by
  unfold fallbackMarkDead
  rcases m with _ | d
  · rfl
  · dsimp only
    split_ifs <;> rfl

theorem reconcileNormalP_dry_effs (pm : Plant → Plant) (a : Args) (u : String)
    (ue : UserEnv) (h : a.dryRun = true) : (reconcileNormalP pm a u ue).2 = [] := by
  unfold reconcileNormalP
  rcases findUserDatPath u ue.datFiles with _ | name
  · rfl
  · rcases ue.loadResult with e | p
    · rfl
    · simp [h]

theorem recovery_dry_effs (a : Args) (now : Int) (u : String) (ue : UserEnv)
    (h : a.dryRun = true) :
    ((if a.reinitCorrupt then reinitCorrupt a now u ue
      else fallbackMarkDead a.dryRun a.deadAfterHours now ue.mirror)).2 = [] := by
  rcases hflag : a.reinitCorrupt with _ | _
  · rw [if_neg (by simp [hflag]), h]
    exact fallbackMarkDead_dry_effs a.deadAfterHours now ue.mirror
  · rw [if_pos rfl]
    unfold reinitCorrupt
    rw [if_pos h]

theorem processUser_dry_effs (a : Args) (now : Int) (u : String) (ue : UserEnv)
    (h : a.dryRun = true) : (processUser a now u ue).effs = [] := by
  unfold processUser
  split
  · rfl
  · split
    · rename_i changed before after effs heq
      have : effs = (reconcileNormal a u ue).2 := by rw [heq]
      rw [this]
      exact reconcileNormalP_dry_effs _ _ _ _ h
    · split
      · rename_i e heq hcl
        have := recovery_dry_effs a now u ue h
        rcases hX : (if a.reinitCorrupt then reinitCorrupt a now u ue
          else fallbackMarkDead a.dryRun a.deadAfterHours now ue.mirror) with ⟨act, ef⟩
        rw [hX] at this
        simp only [hX]
        exact this
      · rfl

theorem runUsers_dry_tagged (a : Args) (now : Int) (h : a.dryRun = true) :
    ∀ (users : List String) (env : String → UserEnv),
      (runUsers a now users env).tagged = []
  | [], _ => rfl
  | u :: rest, env => by
    simp [runUsers, processUser_dry_effs a now u (env u) h,
      runUsers_dry_tagged a now h rest]

/-! ## C2: dry-run mutates no store -/

/-- Claim C2: with `--dry-run`, no path of the run emits a single store mutation:
the normal path skips its persistence block, the mirror write and table
update are guarded no-ops, and the reinit path neither backs up nor
persists — for every user and every classified failure. -/
theorem dry_run_mutates_nothing (a : Args) (now : Int) (globOwners : List String)
    (env : String → UserEnv) (h : a.dryRun = true) :
    (mainRun a now globOwners env).tagged = [] := by
  unfold mainRun mainFinish
  split
  · rfl
  · simp [runUsers_dry_tagged a now h]

/-- Witness for C2 at a concrete run that would write in a real run
(missing primary file, stale mirror, reinit disabled). -/
theorem dry_run_mutates_nothing_witness :
    (mainRun
      { dryRun := true, reinitCorrupt := false, audit := false,
        user := some "al", deadAfterHours := 72, waterIntervalHours := 18 }
      1000000 []
      (fun _ =>
        { datFiles := [], diskSnap := ⟨0, 0, 0⟩,
          loadResult := .error .fileNotFoundError,
          mirror := some [("last_watered", 1)], dbRow := none,
          reinitRaises := false })).tagged = [] :=
  dry_run_mutates_nothing _ 1000000 [] _ rfl

/-! ## C3: the audit mismatch rule -/

/-- Claim C3: `audit_user` reports `mismatch_alive = True` iff both the page-view
alive flag and the live-view dead flag are determinate and they disagree;
whenever either side is indeterminate the mismatch flag is left
undetermined (never flagged). -/
theorem audit_mismatch_rule (a : Args) (now : Int) (u : String) (ue : UserEnv) :
    ((auditUser a now u ue).mismatchAlive = some true ↔
      ∃ pa pd,
        (computePageView a.waterIntervalHours now ue.mirror ue.dbRow).alive = some pa ∧
        (loadPlantState u ue).dead = some pd ∧ pa ≠ decide (pd = 0))
    ∧ (((computePageView a.waterIntervalHours now ue.mirror ue.dbRow).alive = none ∨
        (loadPlantState u ue).dead = none) →
       (auditUser a now u ue).mismatchAlive = none) := by
  constructor
  · unfold auditUser
    rcases hpa : (computePageView a.waterIntervalHours now ue.mirror ue.dbRow).alive
      with _ | pa <;>
      rcases hpd : (loadPlantState u ue).dead with _ | pd <;>
      simp [hpa, hpd]
  · intro h
    unfold auditUser
    rcases h with h | h <;> simp [h]

/-- Witness for C3: a live-load failure leaves the mismatch undetermined
even though the mirror says alive. -/
theorem audit_mismatch_rule_witness :
    (auditUser
      { dryRun := false, reinitCorrupt := false, audit := true, user := none,
        deadAfterHours := 72, waterIntervalHours := 18 }
      1000 "al"
      { datFiles := [("al_plant.dat", 1)], diskSnap := ⟨0, 5, 0⟩,
        loadResult := .error .eofError, mirror := some [("is_dead", 0)],
        dbRow := none, reinitRaises := false }).mismatchAlive = none :=
  (audit_mismatch_rule _ 1000 "al" _).2 (Or.inr rfl)

/-! ## C1: the fallback path -/

/-- Claim C1 counterexample: a present-but-empty mirror document (`{}` on disk).
Its `last_watered` field is absent, so the claim requires the
"skipped: no timestamp" outcome, but `fallback_mark_dead` hits
`if not data:` first (an empty dict is falsy) and reports the "no mirror"
skip instead.  No store is touched either way. -/
theorem fallback_empty_mirror_counterexample :
    some ([] : Doc) ≠ (none : Option Doc)
    ∧ ([] : Doc).lookup "last_watered" = none
    ∧ fallbackMarkDead false 72 1000000 (some []) = ("no JSON; skipped", [])
    ∧ ("no JSON; skipped" : String) ≠ "JSON missing last_watered; skipped" := by
  refine ⟨by simp, rfl, rfl, by decide⟩

/-- Claim C1 (amended): with reinit disabled and dry-run off, the fallback path
behaves as: mirror absent *or empty* → unchanged, "no mirror" skip, no
effects; non-empty mirror with `last_watered` absent or ≤ 0 → unchanged,
"no timestamp" skip, no effects; elapsed time over the threshold with
`is_dead ≠ 1` → the mirror is rewritten with `is_dead = 1` and the table
row is updated to `1` ("repaired-fallback"); `is_dead` already `1` or
within threshold → no store changed. -/
theorem fallback_mark_dead_cases (deadAfterHours now : Int) (mirror : Option Doc) :
    (mirror = none →
      fallbackMarkDead false deadAfterHours now mirror = ("no JSON; skipped", []))
    ∧ (mirror = some [] →
      fallbackMarkDead false deadAfterHours now mirror = ("no JSON; skipped", []))
    ∧ (∀ d, mirror = some d → d ≠ [] →
        (d.lookup "last_watered" = none ∨ ∃ v, d.lookup "last_watered" = some v ∧ v ≤ 0) →
        fallbackMarkDead false deadAfterHours now mirror =
          ("JSON missing last_watered; skipped", []))
    ∧ (∀ d v, mirror = some d → d ≠ [] → d.lookup "last_watered" = some v → 0 < v →
        3600 * deadAfterHours < now - v → (d.lookup "is_dead").getD 0 ≠ 1 →
        fallbackMarkDead false deadAfterHours now mirror =
          ("marked dead via JSON/DB (hours_since=...)",
            [Effect.writeJson (docSet d "is_dead" 1), Effect.updateDbIsDead 1])
        ∧ (docSet d "is_dead" 1).lookup "is_dead" = some 1)
    ∧ (∀ d v, mirror = some d → d ≠ [] → d.lookup "last_watered" = some v → 0 < v →
        3600 * deadAfterHours < now - v → (d.lookup "is_dead").getD 0 = 1 →
        fallbackMarkDead false deadAfterHours now mirror = ("already dead in JSON", []))
    ∧ (∀ d v, mirror = some d → d ≠ [] → d.lookup "last_watered" = some v → 0 < v →
        ¬(3600 * deadAfterHours < now - v) →
        fallbackMarkDead false deadAfterHours now mirror =
          ("still within threshold (...h)", [])) := by
  refine ⟨?_, ?_, ?_, ?_, ?_, ?_⟩
  · rintro rfl
    rfl
  · rintro rfl
    rfl
  · rintro d rfl hne habs
    have hlast : (d.lookup "last_watered").getD 0 ≤ 0 := by
      rcases habs with h | ⟨v, hv, hle⟩
      · simp [h]
      · simp [hv, hle]
    unfold fallbackMarkDead
    simp [hne, hlast]
  · rintro d v rfl hne hv hpos hthr hnd
    refine ⟨?_, docSet_lookup d "is_dead" 1⟩
    have h1 : ¬(d.isEmpty = true) := by simpa using hne
    have h2 : ¬(v ≤ 0) := by omega
    simp [fallbackMarkDead, writeUserJson, updateGardenDbIsDead, h1, hv, h2, hthr, hnd]
  · rintro d v rfl hne hv hpos hthr hd
    have h1 : ¬(d.isEmpty = true) := by simpa using hne
    have h2 : ¬(v ≤ 0) := by omega
    simp [fallbackMarkDead, h1, hv, h2, hthr, hd]
  · rintro d v rfl hne hv hpos hthr
    have h1 : ¬(d.isEmpty = true) := by simpa using hne
    have h2 : ¬(v ≤ 0) := by omega
    simp [fallbackMarkDead, h1, hv, h2, hthr]

/-- Witness for C1 (amended) at a stale, not-yet-dead mirror: both stores
get the dead flag. -/
theorem fallback_mark_dead_cases_witness :
    fallbackMarkDead false 72 1000000 (some [("last_watered", 1)]) =
      ("marked dead via JSON/DB (hours_since=...)",
        [Effect.writeJson (docSet [("last_watered", 1)] "is_dead" 1),
         Effect.updateDbIsDead 1])
    ∧ (docSet [("last_watered", 1)] "is_dead" 1).lookup "is_dead" = some 1 :=
  (fallback_mark_dead_cases 72 1000000 (some [("last_watered", 1)])).2.2.2.1
    [("last_watered", 1)] 1 rfl (by decide) (by decide) (by decide) (by decide)
    (by decide)

/-! ## C7: the page-view projection -/

/-- Claim C7 counterexample: a present-but-empty mirror document.  The claim
requires the mirror to be preferred whenever present (`source = "json"`,
`alive` from its `is_dead`, default `0`, hence `true`), but `if js:` is
falsy on an empty dict, so the code falls through to the table row and
reports `source = "db"`, `alive = false`. -/
theorem page_view_empty_mirror_counterexample :
    some ([] : Doc) ≠ (none : Option Doc)
    ∧ (computePageView 18 1000 (some [])
        (some { age := none, score := none, is_dead := 1 })).source = "db"
    ∧ (computePageView 18 1000 (some [])
        (some { age := none, score := none, is_dead := 1 })).alive = some false
    ∧ ("db" : String) ≠ "json" := by
  refine ⟨by simp, rfl, rfl, by decide⟩

/-- Claim C7 (amended): the projection prefers the mirror document when it is
present *and non-empty*: `alive = (is_dead == 0)` (field default `0`) and
`thirsty = true` iff a non-negative `last_watered` is present and
`now - last_watered ≥ waterIntervalHours*3600`.  When the mirror is absent
or empty it falls back to the latest table row with `alive = (is_dead == 0)`
and `thirsty` undetermined; with neither source, every field is
undetermined. -/
theorem page_view_projection (wih now : Int) (mirror : Option Doc)
    (dbRow : Option Row) :
    (∀ d, mirror = some d → d ≠ [] →
      (computePageView wih now mirror dbRow).source = "json"
      ∧ (computePageView wih now mirror dbRow).alive =
          some (decide ((d.lookup "is_dead").getD 0 = 0))
      ∧ (computePageView wih now mirror dbRow).last_watered = parseLastWatered d
      ∧ ((computePageView wih now mirror dbRow).thirsty = some true ↔
          ∃ lw, parseLastWatered d = some lw ∧ wih * 3600 ≤ now - lw)
      ∧ ((computePageView wih now mirror dbRow).thirsty = none → False))
    ∧ (∀ row, (mirror = none ∨ mirror = some []) → dbRow = some row →
      (computePageView wih now mirror dbRow).source = "db"
      ∧ (computePageView wih now mirror dbRow).alive = some (decide (row.is_dead = 0))
      ∧ (computePageView wih now mirror dbRow).thirsty = none)
    ∧ ((mirror = none ∨ mirror = some []) → dbRow = none →
      computePageView wih now mirror dbRow = PageView.empty) := by
  refine ⟨?_, ?_, ?_⟩
  · rintro d rfl hne
    have h1 : ¬(d.isEmpty = true) := by simpa using hne
    unfold computePageView
    simp only [h1, if_neg h1]
    refine ⟨rfl, rfl, rfl, ?_, ?_⟩
    · rcases hlw : parseLastWatered d with _ | lw
      · simp [hlw]
      · constructor
        · intro h
          simp only [hlw] at h
          refine ⟨lw, rfl, by simpa using h⟩
        · rintro ⟨lw2, hlw2, hcmp⟩
          cases hlw2
          simpa using hcmp
    · rcases hlw : parseLastWatered d with _ | lw <;> simp [hlw]
  · rintro row (rfl | rfl) rfl <;> exact ⟨rfl, rfl, rfl⟩
  · rintro (rfl | rfl) rfl <;> rfl

/-- Witness for C7 (amended): the `alice` scenario — mirror alive, watered
20 h ago, 18 h interval → `alive = true`, `thirsty = true`. -/
theorem page_view_projection_witness :
    (computePageView 18 72100 (some [("is_dead", 0), ("last_watered", 100)])
      none).alive = some true
    ∧ (computePageView 18 72100 (some [("is_dead", 0), ("last_watered", 100)])
      none).thirsty = some true := by
  have h := (page_view_projection 18 72100
    (some [("is_dead", 0), ("last_watered", 100)]) none).1
    [("is_dead", 0), ("last_watered", 100)] rfl (by decide)
  refine ⟨by rw [h.2.1]; decide, ?_⟩
  exact h.2.2.2.1.2 ⟨100, by decide, by decide⟩

/-! ## C8: locating the primary entity file -/

theorem sortByMtimeDesc_head_max (l : List DatFile) (hne : l ≠ []) :
    ∃ c t, sortByMtimeDesc l = c :: t ∧ c ∈ l ∧ ∀ y ∈ l, y.2 ≤ c.2 := by
  induction l with
  | nil => exact absurd rfl hne
  | cons x t0 ih =>
    rcases t0 with _ | ⟨z, t1⟩
    · exact ⟨x, [], rfl, by simp, by simp⟩
    · rcases ih (by simp) with ⟨c, t, hct, hcmem, hcmax⟩
      show ∃ c2 t2, insertByMtime x (sortByMtimeDesc (z :: t1)) = c2 :: t2 ∧ _
      rw [hct]
      by_cases h : c.2 < x.2
      · refine ⟨x, c :: t, by simp [insertByMtime, h], by simp, ?_⟩
        intro y hy
        rcases List.mem_cons.1 hy with rfl | hy2
        · exact le_refl _
        · have := hcmax y hy2
          omega
      · refine ⟨c, insertByMtime x t, by simp [insertByMtime, h],
          List.mem_cons_of_mem _ hcmem, ?_⟩
        intro y hy
        rcases List.mem_cons.1 hy with rfl | hy2
        · omega
        · exact hcmax y hy2

/-- Claim C8: `find_user_dat_path` returns the canonical `<user>_plant.dat`
whenever it is among the `*_plant.dat` candidates of the user's state
directory; otherwise it returns a most-recently-modified candidate; and it
returns nothing exactly when no candidate exists. -/
theorem find_user_dat_path_policy (user : String) (files : List DatFile) :
    (findUserDatPath user files = none ↔
      files.filter (fun f => matchesDatPattern f.1) = [])
    ∧ ((files.filter (fun f => matchesDatPattern f.1)).any
        (fun f => f.1 = user ++ "_plant.dat") = true →
      findUserDatPath user files = some (user ++ "_plant.dat"))
    ∧ (files.filter (fun f => matchesDatPattern f.1) ≠ [] →
      (files.filter (fun f => matchesDatPattern f.1)).any
        (fun f => f.1 = user ++ "_plant.dat") = false →
      ∃ n m, findUserDatPath user files = some n
        ∧ (n, m) ∈ files.filter (fun f => matchesDatPattern f.1)
        ∧ ∀ y ∈ files.filter (fun f => matchesDatPattern f.1), y.2 ≤ m) := by
  refine ⟨?_, ?_, ?_⟩
  · unfold findUserDatPath
    by_cases hc : files.filter (fun f => matchesDatPattern f.1) = []
    · simp [hc]
    · rw [if_neg (by simpa using hc)]
      simp only [hc, iff_false]
      intro h
      split at h
      · exact Option.noConfusion h
      · split at h
        · rename_i hsort
          rcases sortByMtimeDesc_head_max _ hc with ⟨c, t, hct, _, _⟩
          rw [hct] at hsort
          exact List.noConfusion hsort
        · exact Option.noConfusion h
  · intro h
    unfold findUserDatPath
    have hne2 : files.filter (fun f => matchesDatPattern f.1) ≠ [] := by
      intro hEmpty
      rw [hEmpty] at h
      simp at h
    rw [if_neg (by simpa using hne2), if_pos h]
  · intro hne hnocan
    unfold findUserDatPath
    rw [if_neg (by simpa using hne)]
    rw [if_neg (by simp [hnocan])]
    rcases sortByMtimeDesc_head_max _ hne with ⟨c, t, hct, hcmem, hcmax⟩
    rw [hct]
    exact ⟨c.1, c.2, rfl, by simpa using hcmem, hcmax⟩

/-- Witness for C8: a legacy-named candidate directory — the canonical name
is absent, so the newest candidate wins. -/
theorem find_user_dat_path_policy_witness :
    ((([("zz_plant.dat", 5), ("al_plant.dat", 1)] : List DatFile).filter
        (fun f => matchesDatPattern f.1)).any
      (fun f => f.1 = "al" ++ "_plant.dat") = true)
    ∧ findUserDatPath "al" [("zz_plant.dat", 5), ("al_plant.dat", 1)] =
        some ("al" ++ "_plant.dat") :=
  ⟨by decide,
   (find_user_dat_path_policy "al" [("zz_plant.dat", 5), ("al_plant.dat", 1)]).2.1
     (by decide)⟩

/-! ## C4: snapshot placement in the normal path -/

/-- Modelled from the spec: the entity's load-time invariant check (§4.1) —
an elapsed-time state transition run by the external entity module during
`load`, here flipping `dead` once the watering timestamp is more than five
days stale (the exact threshold is irrelevant to the claims). -/
def loadInvariantCheck (now : Int) (p : Plant) : Plant :=
  if p.dead = 0 ∧ 5 * 86400 < now - p.watered then { p with dead := 1 } else p

/-- Claim C4 counterexample: `reconcile_normal` captures the before-snapshot
*after* `dm.load_plant()`, so a load-time invariant check that changed the
state relative to what was on disk (here: the dead check flipping
`dead 0 → 1`) is invisible to the comparison — both snapshots read
`(1, 0, 0)`, `changed = False`, outcome `unchanged`, although the state
differs from the on-disk `(0, 0, 0)`. -/
theorem normal_snapshots_disk_counterexample :
    loadInvariantCheck 1000000 ⟨0, 0, 0⟩ = ⟨1, 0, 0⟩
    ∧ snapOf (loadInvariantCheck 1000000 ⟨0, 0, 0⟩) ≠ snapOf ⟨0, 0, 0⟩
    ∧ (reconcileNormal
        { dryRun := false, reinitCorrupt := false, audit := false, user := none,
          deadAfterHours := 72, waterIntervalHours := 18 }
        "al"
        { datFiles := [("al_plant.dat", 1)], diskSnap := ⟨0, 0, 0⟩,
          loadResult := .ok (loadInvariantCheck 1000000 ⟨0, 0, 0⟩),
          mirror := none, dbRow := none, reinitRaises := false }).1 =
      .ok (false, (1, 0, 0), (1, 0, 0)) := by
  refine ⟨by decide, by decide, by decide⟩

/-- Claim C4 (amended): both snapshots are captured after `load` — the before-
snapshot from the just-loaded entity and the after-snapshot after the
persistence calls — so the outcome is `updated` exactly when persistence
changed the in-memory `(dead, lastWatered, tickCount)`; changes applied by
load's own invariant checks relative to the on-disk state are not reported,
and the result does not depend on the on-disk snapshot at all. -/
theorem normal_snapshots_around_persist (persistMut : Plant → Plant) (a : Args)
    (u : String) (ue : UserEnv) (p : Plant) (nm : String)
    (hdat : findUserDatPath u ue.datFiles = some nm)
    (hload : ue.loadResult = .ok p) (hdry : a.dryRun = false) :
    (reconcileNormalP persistMut a u ue).1 =
      .ok (decide (snapOf p ≠ snapOf (persistMut p)), snapOf p, snapOf (persistMut p))
    ∧ (∀ d2 : Plant,
        reconcileNormalP persistMut a u { ue with diskSnap := d2 } =
          reconcileNormalP persistMut a u ue) := by
  constructor
  · unfold reconcileNormalP
    rw [hdat, hload, hdry]
    simp
  · intro d2
    rfl

/-- Witness for C4 (amended): a persistence step that does mutate the
in-memory entity (bumping `ticks`) makes the outcome `updated`. -/
theorem normal_snapshots_around_persist_witness :
    (reconcileNormalP (fun p => { p with ticks := p.ticks + 1 })
      { dryRun := false, reinitCorrupt := false, audit := false, user := none,
        deadAfterHours := 72, waterIntervalHours := 18 }
      "al"
      { datFiles := [("al_plant.dat", 1)], diskSnap := ⟨0, 5, 0⟩,
        loadResult := .ok ⟨0, 5, 0⟩, mirror := none, dbRow := none,
        reinitRaises := false }).1 = .ok (true, (0, 5, 0), (0, 5, 1)) := by
  rw [(normal_snapshots_around_persist (fun p => { p with ticks := p.ticks + 1 })
    { dryRun := false, reinitCorrupt := false, audit := false, user := none,
      deadAfterHours := 72, waterIntervalHours := 18 }
    "al"
    { datFiles := [("al_plant.dat", 1)], diskSnap := ⟨0, 5, 0⟩,
      loadResult := .ok ⟨0, 5, 0⟩, mirror := none, dbRow := none,
      reinitRaises := false }
    ⟨0, 5, 0⟩ "al_plant.dat" (by decide) rfl rfl).1]
  decide

/-! ## C5: the exit-code policy -/

theorem exitCodeOf_spec (a : Args) (rows : List AuditRecord) :
    (exitCodeOf a rows = 0 ∨ exitCodeOf a rows = 2)
    ∧ (exitCodeOf a rows = 2 ↔
        a.audit = true ∧ ∃ r ∈ rows, r.mismatchAlive = some true) := by
  unfold exitCodeOf
  rcases haud : a.audit with _ | _
  · simp [haud]
  · simp only [Bool.true_and]
    rcases hany : rows.any (fun r => r.mismatchAlive == some true) with _ | _
    · rw [if_neg (by decide : ¬(false = true))]
      refine ⟨Or.inl rfl, ?_⟩
      constructor
      · intro h0
        exact absurd h0 (by decide)
      · rintro ⟨-, r, hr, hmis⟩
        have hx : (rows.any fun r => r.mismatchAlive == some true) = true :=
          List.any_eq_true.2 ⟨r, hr, by rw [hmis]; rfl⟩
        rw [hx] at hany
        exact absurd hany (by decide)
    · rw [if_pos rfl]
      refine ⟨Or.inr rfl, ?_⟩
      constructor
      · intro _
        rcases List.any_eq_true.1 hany with ⟨r, hr, hmis⟩
        exact ⟨trivial, r, hr, by simpa using hmis⟩
      · intro _
        rfl

theorem mainFinish_exit (a : Args) (now : Int) (users : List String)
    (env : String → UserEnv) :
    ((mainFinish a now users env).exit = 0 ∨ (mainFinish a now users env).exit = 2)
    ∧ ((mainFinish a now users env).exit = 2 ↔
        a.audit = true
        ∧ ∃ r ∈ (mainFinish a now users env).rows, r.mismatchAlive = some true) := by
  unfold mainFinish
  split
  · simp
  · exact exitCodeOf_spec a
      (auditRows a now users (runUsers a now (sortStrings users) env).envAfter)

/-- Claim C5: the process exit code is `0` unless auditing was requested and at
least one processed user's audit record has `mismatch = true`, in which
case it is the distinct code `2`; the per-user outcome counters (including
hard errors) play no part in it. -/
theorem exit_code_policy (a : Args) (now : Int) (globOwners : List String)
    (env : String → UserEnv) :
    ((mainRun a now globOwners env).exit = 0 ∨ (mainRun a now globOwners env).exit = 2)
    ∧ ((mainRun a now globOwners env).exit = 2 ↔
        a.audit = true
        ∧ ∃ r ∈ (mainRun a now globOwners env).rows, r.mismatchAlive = some true) :=
  mainFinish_exit a now (usersOf a globOwners) env

/-- Witness for C5: an audit run over one user whose mirror disagrees with
the live entity exits with code 2. -/
theorem exit_code_policy_witness :
    (mainRun
      { dryRun := true, reinitCorrupt := false, audit := true, user := some "al",
        deadAfterHours := 72, waterIntervalHours := 18 }
      1000 []
      (fun _ =>
        { datFiles := [("al_plant.dat", 1)], diskSnap := ⟨1, 5, 0⟩,
          loadResult := .ok ⟨1, 5, 0⟩, mirror := some [("is_dead", 0)],
          dbRow := none, reinitRaises := false })).exit = 2 := by
  have h := (exit_code_policy
    { dryRun := true, reinitCorrupt := false, audit := true, user := some "al",
      deadAfterHours := 72, waterIntervalHours := 18 }
    1000 []
    (fun _ =>
      { datFiles := [("al_plant.dat", 1)], diskSnap := ⟨1, 5, 0⟩,
        loadResult := .ok ⟨1, 5, 0⟩, mirror := some [("is_dead", 0)],
        dbRow := none, reinitRaises := false })).2
  rw [h]
  refine ⟨rfl, ?_⟩
  rw [show (mainRun
      { dryRun := true, reinitCorrupt := false, audit := true, user := some "al",
        deadAfterHours := 72, waterIntervalHours := 18 }
      1000 []
      (fun _ =>
        { datFiles := [("al_plant.dat", 1)], diskSnap := ⟨1, 5, 0⟩,
          loadResult := .ok ⟨1, 5, 0⟩, mirror := some [("is_dead", 0)],
          dbRow := none, reinitRaises := false })).rows =
    [auditUser
      { dryRun := true, reinitCorrupt := false, audit := true, user := some "al",
        deadAfterHours := 72, waterIntervalHours := 18 }
      1000 "al"
      { datFiles := [("al_plant.dat", 1)], diskSnap := ⟨1, 5, 0⟩,
        loadResult := .ok ⟨1, 5, 0⟩, mirror := some [("is_dead", 0)],
        dbRow := none, reinitRaises := false }] from by decide]
  refine ⟨_, List.mem_singleton.2 rfl, by decide⟩

/-! ## C6: routing of classified failures, batch coverage -/

theorem length_insertStr (x : String) (l : List String) :
    (insertStr x l).length = l.length + 1 := by
  induction l with
  | nil => rfl
  | cons y t ih =>
    unfold insertStr
    split
    · rfl
    · simp [ih]

theorem length_sortStrings (l : List String) :
    (sortStrings l).length = l.length := by
  induction l with
  | nil => rfl
  | cons x t ih =>
    unfold sortStrings
    rw [length_insertStr, ih, List.length_cons]

/-- Claim C6: (i) the loop yields one outcome per listed user and never aborts
(`runUsers` is total and length-preserving, as is the `sorted()` it is fed);
(ii) a normal-path failure with one of the caught exception classes is
routed into recovery — reinit when flagged, else the fallback; (iii) any
other exception becomes a hard error: counted, no repair effect, no fixed
count; (iv) the caught classes are exactly the spec's three classified
kinds (NotFound, Corrupt, Unavailable). -/
theorem classified_failure_routing (a : Args) (now : Int) :
    (∀ (users : List String) (env : String → UserEnv),
      (runUsers a now users env).outcomes.length = users.length)
    ∧ (∀ l : List String, (sortStrings l).length = l.length)
    ∧ (∀ (u : String) (ue : UserEnv) (e : PyExc),
        isSafeUsername u = true → (reconcileNormal a u ue).1 = .error e →
        classifiedExc e = true →
        (processUser a now u ue).outcome = .recovered
          (if a.reinitCorrupt then (reinitCorrupt a now u ue).1
           else (fallbackMarkDead a.dryRun a.deadAfterHours now ue.mirror).1))
    ∧ (∀ (u : String) (ue : UserEnv) (e : PyExc),
        isSafeUsername u = true → (reconcileNormal a u ue).1 = .error e →
        classifiedExc e = false →
        processUser a now u ue =
          { outcome := .hardError e, fixedD := 0, errorsD := 1, effs := [] })
    ∧ (∀ e : PyExc, classifiedExc e = true ↔ kindOfExc e ≠ .unclassified) := by
  refine ⟨?_, ?_, ?_, ?_, ?_⟩
  · intro users
    induction users with
    | nil => intro env; rfl
    | cons u t ih =>
      intro env
      simp only [runUsers, List.length_cons]
      rw [ih]
  · exact length_sortStrings
  · intro u ue e hsafe hre hcl
    unfold processUser
    rw [hsafe]
    simp only [Bool.not_true, if_neg Bool.false_ne_true]
    rcases hR : reconcileNormal a u ue with ⟨res, effs2⟩
    rw [hR] at hre
    simp only at hre
    subst hre
    by_cases hrc : a.reinitCorrupt = true
    · simp [hcl, hrc]
    · simp [hcl, hrc]
  · intro u ue e hsafe hre hcl
    unfold processUser
    rw [hsafe]
    simp only [Bool.not_true, if_neg Bool.false_ne_true]
    rcases hR : reconcileNormal a u ue with ⟨res, effs2⟩
    rw [hR] at hre
    simp only at hre
    subst hre
    simp [hcl]
  · intro e
    cases e <;> simp [classifiedExc, kindOfExc]

/-- Witness for C6: a missing-file user is routed to the fallback, an
unclassified failure becomes a hard error, and a two-user batch yields two
outcomes. -/
theorem classified_failure_routing_witness :
    (processUser
      { dryRun := false, reinitCorrupt := false, audit := false, user := none,
        deadAfterHours := 72, waterIntervalHours := 18 } 1000 "al"
      { datFiles := [], diskSnap := ⟨0, 0, 0⟩,
        loadResult := .error .fileNotFoundError, mirror := none, dbRow := none,
        reinitRaises := false }).outcome = .recovered "no JSON; skipped"
    ∧ processUser
        { dryRun := false, reinitCorrupt := false, audit := false, user := none,
          deadAfterHours := 72, waterIntervalHours := 18 } 1000 "bo"
        { datFiles := [("bo_plant.dat", 1)], diskSnap := ⟨0, 0, 0⟩,
          loadResult := .error (.otherError 0), mirror := none, dbRow := none,
          reinitRaises := false } =
      { outcome := .hardError (.otherError 0), fixedD := 0, errorsD := 1, effs := [] }
    ∧ (runUsers
        { dryRun := false, reinitCorrupt := false, audit := false, user := none,
          deadAfterHours := 72, waterIntervalHours := 18 } 1000 ["al", "bo"]
        (fun _ =>
          { datFiles := [], diskSnap := ⟨0, 0, 0⟩,
            loadResult := .error .fileNotFoundError, mirror := none, dbRow := none,
            reinitRaises := false })).outcomes.length = 2
    ∧ (classifiedExc .eofError = true ↔ kindOfExc .eofError ≠ .unclassified) := by
  have h := classified_failure_routing
    { dryRun := false, reinitCorrupt := false, audit := false, user := none,
      deadAfterHours := 72, waterIntervalHours := 18 } 1000
  refine ⟨?_, ?_, ?_, h.2.2.2.2 .eofError⟩
  · rw [h.2.2.1 "al"
      { datFiles := [], diskSnap := ⟨0, 0, 0⟩,
        loadResult := .error .fileNotFoundError, mirror := none, dbRow := none,
        reinitRaises := false } .fileNotFoundError (by decide) rfl rfl]
    decide
  · exact h.2.2.2.1 "bo"
      { datFiles := [("bo_plant.dat", 1)], diskSnap := ⟨0, 0, 0⟩,
        loadResult := .error (.otherError 0), mirror := none, dbRow := none,
        reinitRaises := false } (.otherError 0) (by decide) rfl rfl
  · exact h.1 ["al", "bo"] _

/-! ## C9: unsafe usernames and store mutation -/

/-- Claim C9 counterexample: `"bob\n"` does not match the character class
`[A-Za-z0-9._-]+`, yet `re.match(r"^[A-Za-z0-9._-]+$", ...)` accepts it
(`$` also matches before a single trailing newline), so a run with
`--user "bob\n"` performs mirror and table writes for it. -/
theorem unsafe_username_newline_counterexample :
    matchesSafeClass "bob\n" = false
    ∧ (mainRun
        { dryRun := false, reinitCorrupt := false, audit := false,
          user := some "bob\n", deadAfterHours := 72, waterIntervalHours := 18 }
        1000000 []
        (fun _ =>
          { datFiles := [], diskSnap := ⟨0, 0, 0⟩,
            loadResult := .error .fileNotFoundError,
            mirror := some [("last_watered", 1)], dbRow := none,
            reinitRaises := false })).tagged =
      [("bob\n", .writeJson [("last_watered", 1), ("is_dead", 1)]),
       ("bob\n", .updateDbIsDead 1)] := by
  refine ⟨by decide, by decide⟩

/-- Claim C9 (amended): every username that receives a store mutation passes
`is_safe_username`, and the names that check accepts are exactly the
class-matching ones possibly followed by one trailing newline (the `$`
anchor's newline allowance) — so any name that is neither gets no store
mutation. -/
theorem unsafe_usernames_unmutated (a : Args) (now : Int) :
    (∀ (users : List String) (env : String → UserEnv) (u : String) (e : Effect),
      (u, e) ∈ (runUsers a now users env).tagged → isSafeUsername u = true)
    ∧ (∀ u : String, isSafeUsername u = true →
        matchesSafeClass u = true
        ∨ ∃ s : String, u = s ++ "\n" ∧ matchesSafeClass s = true) := by
  constructor
  · intro users
    induction users with
    | nil =>
      intro env u e hmem
      exact absurd hmem (List.not_mem_nil _)
    | cons u0 t ih =>
      intro env u e hmem
      simp only [runUsers] at hmem
      rcases List.mem_append.1 hmem with hmem2 | hmem2
      · rcases List.mem_map.1 hmem2 with ⟨e0, he0, heq⟩
        have hu : u = u0 := by
          have := congrArg Prod.fst heq
          simpa using this.symm
        subst hu
        by_cases hs : isSafeUsername u = true
        · exact hs
        · have hs2 : isSafeUsername u = false := by
            rwa [Bool.not_eq_true] at hs
          have heffs : (processUser a now u (env u)).effs = [] := by
            unfold processUser
            rw [hs2]
            rfl
          rw [heffs] at he0
          exact absurd he0 (List.not_mem_nil _)
      · exact ih _ u e hmem2
  · intro u hu
    unfold isSafeUsername at hu
    have hu2 : (!(if u.data.getLast? = some '\n' then u.data.dropLast else u.data).isEmpty
        && (if u.data.getLast? = some '\n' then u.data.dropLast else u.data).all safeChar)
        = true := hu
    clear hu
    rename' hu2 => hu
    by_cases hl : u.data.getLast? = some '\n'
    · rw [if_pos hl] at hu
      right
      have hne : u.data ≠ [] := by
        intro h0
        rw [h0] at hl
        exact Option.noConfusion hl
      refine ⟨⟨u.data.dropLast⟩, ?_, ?_⟩
      · have hlast : u.data.getLast hne = '\n' := by
          have := List.getLast?_eq_getLast u.data hne
          rw [hl] at this
          exact (Option.some_inj.1 this).symm
        have hdata : u.data.dropLast ++ ['\n'] = u.data := by
          rw [← hlast]
          exact List.dropLast_append_getLast hne
        show u = String.mk (u.data.dropLast ++ "\n".data)
        have h2 : ("\n" : String).data = ['\n'] := rfl
        rw [h2, hdata]
      · unfold matchesSafeClass
        exact hu
    · rw [if_neg hl] at hu
      left
      unfold matchesSafeClass
      exact hu

/-- Witness for C9 (amended): a safe user's fallback writes exist and the
theorem certifies the name passed the safety check. -/
theorem unsafe_usernames_unmutated_witness :
    ("al", Effect.updateDbIsDead 1) ∈
      (runUsers
        { dryRun := false, reinitCorrupt := false, audit := false, user := none,
          deadAfterHours := 72, waterIntervalHours := 18 }
        1000000 ["al"]
        (fun _ =>
          { datFiles := [], diskSnap := ⟨0, 0, 0⟩,
            loadResult := .error .fileNotFoundError,
            mirror := some [("last_watered", 1)], dbRow := none,
            reinitRaises := false })).tagged
    ∧ isSafeUsername "al" = true := by
  refine ⟨by decide, ?_⟩
  exact (unsafe_usernames_unmutated
    { dryRun := false, reinitCorrupt := false, audit := false, user := none,
      deadAfterHours := 72, waterIntervalHours := 18 } 1000000).1
    ["al"]
    (fun _ =>
      { datFiles := [], diskSnap := ⟨0, 0, 0⟩,
        loadResult := .error .fileNotFoundError,
        mirror := some [("last_watered", 1)], dbRow := none,
        reinitRaises := false })
    "al" (.updateDbIsDead 1) (by decide)

/-! ## C10: fixed-counting under dry-run -/

theorem fallbackMarkDead_marked (dry : Bool) (T n : Int) (d : Doc) (v : Int)
    (hne : d ≠ []) (hv : d.lookup "last_watered" = some v) (hpos : 0 < v)
    (hthr : 3600 * T < n - v) (hnd : (d.lookup "is_dead").getD 0 ≠ 1) :
    fallbackMarkDead dry T n (some d) =
      ("marked dead via JSON/DB (hours_since=...)",
       if dry then []
       else [.writeJson (docSet d "is_dead" 1), .updateDbIsDead 1]) := by
  have h1 : ¬(d.isEmpty = true) := by simpa using hne
  have h2 : ¬(v ≤ 0) := by omega
  rcases dry with _ | _ <;>
    simp [fallbackMarkDead, writeUserJson, updateGardenDbIsDead, h1, hv, h2, hthr, hnd]

theorem reconcileNormal_fst_ok (a : Args) (u : String) (ue : UserEnv)
    (nm : String) (hfind : findUserDatPath u ue.datFiles = some nm)
    (p : Plant) (hload : ue.loadResult = .ok p) :
    (reconcileNormal a u ue).1 = .ok (false, snapOf p, snapOf p) := by
  unfold reconcileNormal reconcileNormalP
  rw [hfind, hload]
  rcases hd : a.dryRun with _ | _ <;> simp [hd, persistKeepsFields]

theorem reconcileNormal_fst_err (a : Args) (u : String) (ue : UserEnv)
    (nm : String) (hfind : findUserDatPath u ue.datFiles = some nm)
    (e : PyExc) (hload : ue.loadResult = .error e) :
    reconcileNormal a u ue = (.error e, []) := by
  unfold reconcileNormal reconcileNormalP
  rw [hfind, hload]

theorem reconcileNormal_fst_none (a : Args) (u : String) (ue : UserEnv)
    (hfind : findUserDatPath u ue.datFiles = none) :
    reconcileNormal a u ue = (.error .fileNotFoundError, []) := by
  unfold reconcileNormal reconcileNormalP
  rw [hfind]

/-- Claim C10: (A) the fallback's outcome message does not depend on the dry-run
flag; (B) under dry-run a past-threshold, not-yet-dead mirror is still
reported "marked dead" and contributes 1 to the fixed counter while writing
nothing; (C) a dry-run reinit is reported but never counted fixed; (D) the
per-user fixed contribution can differ between a dry and a real run only on
the reinit path (a classified failure with `--reinit-corrupt`). -/
theorem dry_run_fixed_counting (a : Args) (now : Int) :
    (∀ (d1 d2 : Bool) (T n : Int) (m : Option Doc),
      (fallbackMarkDead d1 T n m).1 = (fallbackMarkDead d2 T n m).1)
    ∧ (∀ (u : String) (ue : UserEnv) (d : Doc) (v : Int) (e : PyExc),
        a.dryRun = true → a.reinitCorrupt = false → isSafeUsername u = true →
        (reconcileNormal a u ue).1 = .error e → classifiedExc e = true →
        ue.mirror = some d → d ≠ [] → d.lookup "last_watered" = some v → 0 < v →
        3600 * a.deadAfterHours < now - v → (d.lookup "is_dead").getD 0 ≠ 1 →
        processUser a now u ue =
          { outcome := .recovered "marked dead via JSON/DB (hours_since=...)",
            fixedD := 1, errorsD := 0, effs := [] })
    ∧ (∀ (u : String) (ue : UserEnv) (e : PyExc),
        a.dryRun = true → a.reinitCorrupt = true → isSafeUsername u = true →
        (reconcileNormal a u ue).1 = .error e → classifiedExc e = true →
        processUser a now u ue =
          { outcome := .recovered "DRY-RUN would reinitialize and backup",
            fixedD := 0, errorsD := 0, effs := [] })
    ∧ (∀ (u : String) (ue : UserEnv),
        (processUser { a with dryRun := true } now u ue).fixedD ≠
          (processUser { a with dryRun := false } now u ue).fixedD →
        a.reinitCorrupt = true
        ∧ ∃ e, (reconcileNormal { a with dryRun := false } u ue).1 = .error e
            ∧ classifiedExc e = true) := by
  refine ⟨fun d1 d2 T n m => fallbackMarkDead_msg_indep_dry d1 d2 T n m, ?_, ?_, ?_⟩
  · intro u ue d v e hdry hrc hsafe hre hcl hmir hne hv hpos hthr hnd
    have hm := fallbackMarkDead_marked true a.deadAfterHours now d v hne hv hpos hthr hnd
    have hcf : countsFixed "marked dead via JSON/DB (hours_since=...)" = true := by
      decide
    unfold processUser
    rw [hsafe]
    simp only [Bool.not_true, if_neg Bool.false_ne_true]
    rcases hR : reconcileNormal a u ue with ⟨res, effs2⟩
    rw [hR] at hre
    simp only at hre
    subst hre
    rw [hmir, hdry]
    simp [hcl, hrc, hm, hcf]
  · intro u ue e hdry hrc hsafe hre hcl
    have hcf : countsFixed "DRY-RUN would reinitialize and backup" = false := by
      decide
    unfold processUser
    rw [hsafe]
    simp only [Bool.not_true, if_neg Bool.false_ne_true]
    rcases hR : reconcileNormal a u ue with ⟨res, effs2⟩
    rw [hR] at hre
    simp only at hre
    subst hre
    simp [hcl, hrc, reinitCorrupt, hdry, hcf]
  · intro u ue hneq
    by_cases hs : isSafeUsername u = true
    · rcases hfind : findUserDatPath u ue.datFiles with _ | nm
      · by_cases hrc : a.reinitCorrupt = true
        · exact ⟨hrc, .fileNotFoundError,
            by rw [reconcileNormal_fst_none _ u ue hfind], rfl⟩
        · exfalso
          apply hneq
          have hcompute : ∀ dd : Bool,
              (processUser { a with dryRun := dd } now u ue).fixedD =
                if countsFixed (fallbackMarkDead dd a.deadAfterHours now ue.mirror).1
                then 1 else 0 := by
            intro dd
            unfold processUser
            rw [hs]
            simp only [Bool.not_true, if_neg Bool.false_ne_true]
            rw [reconcileNormal_fst_none _ u ue hfind]
            simp [hrc, classifiedExc]
          rw [hcompute true, hcompute false,
            fallbackMarkDead_msg_indep_dry true false a.deadAfterHours now ue.mirror]
      · rcases hload : ue.loadResult with e | p
        · by_cases hcl : classifiedExc e = true
          · by_cases hrc : a.reinitCorrupt = true
            · exact ⟨hrc, e,
                by rw [reconcileNormal_fst_err _ u ue nm hfind e hload], hcl⟩
            · exfalso
              apply hneq
              have hcompute : ∀ dd : Bool,
                  (processUser { a with dryRun := dd } now u ue).fixedD =
                    if countsFixed (fallbackMarkDead dd a.deadAfterHours now ue.mirror).1
                    then 1 else 0 := by
                intro dd
                unfold processUser
                rw [hs]
                simp only [Bool.not_true, if_neg Bool.false_ne_true]
                rw [reconcileNormal_fst_err _ u ue nm hfind e hload]
                simp [hcl, hrc]
              rw [hcompute true, hcompute false,
                fallbackMarkDead_msg_indep_dry true false a.deadAfterHours now ue.mirror]
          · exfalso
            apply hneq
            have hcl2 : classifiedExc e = false := by rwa [Bool.not_eq_true] at hcl
            have hcompute : ∀ dd : Bool,
                (processUser { a with dryRun := dd } now u ue).fixedD = 0 := by
              intro dd
              unfold processUser
              rw [hs]
              simp only [Bool.not_true, if_neg Bool.false_ne_true]
              rw [reconcileNormal_fst_err _ u ue nm hfind e hload]
              simp [hcl2]
            rw [hcompute true, hcompute false]
        · exfalso
          apply hneq
          have hcompute : ∀ dd : Bool,
              (processUser { a with dryRun := dd } now u ue).fixedD = 0 := by
            intro dd
            unfold processUser
            rw [hs]
            simp only [Bool.not_true, if_neg Bool.false_ne_true]
            unfold reconcileNormal reconcileNormalP
            rw [hfind, hload]
            rcases dd with _ | _ <;> simp [persistKeepsFields]
          rw [hcompute true, hcompute false]
    · exfalso
      apply hneq
      have hs2 : isSafeUsername u = false := by rwa [Bool.not_eq_true] at hs
      have hcompute : ∀ dd : Bool,
          (processUser { a with dryRun := dd } now u ue).fixedD = 0 := by
        intro dd
        unfold processUser
        rw [hs2]
        rfl
      rw [hcompute true, hcompute false]

/-- Witness for C10 at a reinit run: the dry and real fixed contributions
differ (0 vs 1), and the theorem certifies the user took the reinit path on
a classified failure. -/
theorem dry_run_fixed_counting_witness :
    ({ dryRun := false, reinitCorrupt := true, audit := false, user := none,
       deadAfterHours := 72, waterIntervalHours := 18 : Args }.reinitCorrupt = true)
    ∧ ∃ e, (reconcileNormal
        { dryRun := false, reinitCorrupt := true, audit := false, user := none,
          deadAfterHours := 72, waterIntervalHours := 18 } "al"
        { datFiles := [], diskSnap := ⟨0, 0, 0⟩,
          loadResult := .error .fileNotFoundError, mirror := none, dbRow := none,
          reinitRaises := false }).1 = .error e ∧ classifiedExc e = true := by
  have h := (dry_run_fixed_counting
    { dryRun := false, reinitCorrupt := true, audit := false, user := none,
      deadAfterHours := 72, waterIntervalHours := 18 } 1000000).2.2.2
    "al"
    { datFiles := [], diskSnap := ⟨0, 0, 0⟩,
      loadResult := .error .fileNotFoundError, mirror := none, dbRow := none,
      reinitRaises := false }
    (by decide)
  exact h

end BotanyReconcile
